import Mathlib

/-!
Shallow embedding of the GenealogyCanvas relationship consistency engine.

The repository stores family members and directed, typed relationship edges
(parent / child / spouse) and mutates them through Express route handlers.
Two handler revisions are embedded here:

* `RoutesTs` — the handlers of `src/server/routes.ts` (first `registerRoutes`)
  over the schema of `src/db/schema.ts` (`relationships` rows keyed
  `personId` / `relatedPersonId`, cascade on both endpoints, no unique index).
* `Part002` — the handlers of `src/unnamed/part_002` over the schema of
  `src/unnamed/part_010` (`fromMemberId` / `toMemberId` rows, plus
  `timeline_events` and `documents`, cascade on every foreign key).

Machine integers of the source are modelled as `Nat` (ids are Postgres
serials); timestamps are not modelled (no claim mentions them); the store's
foreign-key enforcement declared in the schema files is modelled as an
explicit existence test whose failure yields the generic 500 response the
handlers produce from their `catch` blocks.  `relatedPersonId` arrives as a
string and is parsed with `parseInt`; claims never exercise non-numeric
input, so it is modelled as `Nat` directly, and the JS truthiness filter of
`part_002` on the id is modelled as `≠ 0`.
-/

/-- Closed set of the `relation_type` text column used by every handler. -/
inductive RelationType
  | parent
  | child
  | spouse
deriving DecidableEq

/-- Ternary chain `rel.relationType === 'parent' ? 'child' : rel.relationType === 'child' ? 'parent' : 'spouse'` shared by the handlers. -/
def reciprocalType : RelationType → RelationType
  | RelationType.parent => RelationType.child
  | RelationType.child => RelationType.parent
  | RelationType.spouse => RelationType.spouse

/-- One element of the `relationships[]` array of a request body. -/
structure RelInput where
  relatedPersonId : Nat
  relationType : RelationType
deriving DecidableEq

/-- Scalar member fields carried by a create / update request body
(`family_members` columns other than `id` and the timestamps). -/
structure MemberData where
  firstName : String
  lastName : String
  gender : String
  birthDate : Option String
  deathDate : Option String
  birthPlace : Option String
  currentLocation : Option String
  bio : Option String
deriving DecidableEq

/-- A row of `family_members`. -/
structure FamilyMember where
  id : Nat
  data : MemberData
deriving DecidableEq

/-- Outcome of a handler: 200 JSON, the 400 `Duplicate relationships detected`
rejection, the explicit 404 of the `part_002` update, or the generic 500 that
a `catch` block produces (including store foreign-key failures). -/
inductive Response
  | ok
  | duplicateDetected
  | notFound
  | serverError
deriving DecidableEq

/-- Ids of the member rows (used for the store's foreign-key checks). -/
def memberIds (members : List FamilyMember) : List Nat :=
  members.map (fun m => m.id)

/-- Drizzle `update(familyMembers).set(formattedMemberData).where(eq(id))`:
every row whose id matches gets its scalar columns replaced. -/
def updateMemberRow (id : Nat) (md : MemberData) (members : List FamilyMember) : List FamilyMember :=
  members.map (fun m => if m.id = id then { m with data := md } else m)

/-- Row lookup by id (`findFirst` / the `.returning()` destructuring). -/
def findMember (id : Nat) (members : List FamilyMember) : Option FamilyMember :=
  members.find? (fun m => m.id == id)

namespace RoutesTs

/-- A `relationships` row of `src/db/schema.ts`: serial id, `person_id`,
`related_person_id`, `relation_type` (the `created_at` timestamp is not
modelled). -/
structure Rel where
  id : Nat
  personId : Nat
  relatedPersonId : Nat
  relationType : RelationType
deriving DecidableEq

/-- A `documents` row of `src/db/schema.ts` (`upload_date` not modelled). -/
structure Doc where
  id : Nat
  familyMemberId : Nat
  title : String
  documentType : String
  fileUrl : String
  description : Option String
deriving DecidableEq

/-- Database state for the `routes.ts` revision: the three tables of
`src/db/schema.ts` plus the serial counters. -/
structure DB where
  members : List FamilyMember
  rels : List Rel
  docs : List Doc
  nextMemberId : Nat
  nextRelId : Nat
deriving DecidableEq

/-- The `relationshipsToInsert` array built by `flatMap`: for every
declaration, the forward row `(member.id, relatedPersonId, relationType)`
followed by the reciprocal row `(relatedPersonId, member.id, reciprocal)`.
Serial row ids are assigned in insertion order starting at `i`. -/
def relationshipsToInsert (memberId : Nat) : Nat → List RelInput → List Rel
  | _, [] => []
  | i, r :: rest =>
      { id := i, personId := memberId, relatedPersonId := r.relatedPersonId,
        relationType := r.relationType } ::
      { id := i + 1, personId := r.relatedPersonId, relatedPersonId := memberId,
        relationType := reciprocalType r.relationType } ::
      relationshipsToInsert memberId (i + 2) rest

/-- The PUT handler's duplicate scan: a `Set` keyed on
`relatedPersonId-relationType`; reports `true` when a later element repeats
an earlier key (first occurrence wins). -/
def hasDuplicatesAux : List (Nat × RelationType) → List RelInput → Bool
  | _, [] => false
  | seen, r :: rest =>
      if seen.contains (r.relatedPersonId, r.relationType) then true
      else hasDuplicatesAux ((r.relatedPersonId, r.relationType) :: seen) rest

/-- `newRelationships.some(...)` duplicate detection of the PUT handler. -/
def hasDuplicates (rels : List RelInput) : Bool :=
  hasDuplicatesAux [] rels

/-- Store foreign-key enforcement from `src/db/schema.ts`: a batch insert of
declaration pairs succeeds only when every `relatedPersonId` references an
existing member row (the member's own id is inserted by the caller first). -/
def relatedIdsExist (members : List FamilyMember) (rels : List RelInput) : Bool :=
  rels.all (fun r => (memberIds members).contains r.relatedPersonId)

/-- POST `/api/family-members` of `src/server/routes.ts`: insert the member,
query `existingRelationships` touching the new member id with the FIRST
declaration's type (or its reciprocal), reject with 400 if any are found,
otherwise batch-insert the forward and reciprocal rows.  A foreign-key
failure of the batch is caught as the generic 500 with the member row kept
(there is no surrounding transaction). -/
def postFamilyMember (md : MemberData) (relationshipData : List RelInput) (s : DB) : DB × Response :=
  let member : FamilyMember := { id := s.nextMemberId, data := md }
  let s1 : DB := { s with members := s.members ++ [member], nextMemberId := s.nextMemberId + 1 }
  match relationshipData with
  | [] => (s1, Response.ok)
  | r0 :: rest =>
      let existingRelationships := s1.rels.filter (fun r =>
        (r.personId == member.id && r.relationType == r0.relationType) ||
        (r.relatedPersonId == member.id && r.relationType == reciprocalType r0.relationType))
      if existingRelationships.length > 0 then
        (s1, Response.duplicateDetected)
      else if relatedIdsExist s1.members (r0 :: rest) then
        ({ s1 with
             rels := s1.rels ++ relationshipsToInsert member.id s1.nextRelId (r0 :: rest),
             nextRelId := s1.nextRelId + 2 * (r0 :: rest).length }, Response.ok)
      else
        (s1, Response.serverError)

/-- PUT `/api/family-members/:id` of `src/server/routes.ts`: update the member
row, and when a `relationships` field is present (even an empty list) first
DELETE the rows whose `personId` is the member — forward direction only —
then run the duplicate scan (400 on failure, with the deletion already
applied), then batch-insert forward/reciprocal pairs.  When the member row
does not exist the `member.id` dereference throws and surfaces as the
generic 500, again with the deletion already applied. -/
def putFamilyMember (id : Nat) (md : MemberData) (newRelationships : Option (List RelInput)) (s : DB) : DB × Response :=
  let s1 : DB := { s with members := updateMemberRow id md s.members }
  match newRelationships with
  | none => (s1, Response.ok)
  | some newRels =>
      let s2 : DB := { s1 with rels := s1.rels.filter (fun r => r.personId != id) }
      if hasDuplicates newRels then
        (s2, Response.duplicateDetected)
      else
        match newRels, findMember id s.members with
        | [], _ => (s2, Response.ok)
        | _ :: _, none => (s2, Response.serverError)
        | r0 :: rest, some member =>
            if relatedIdsExist s2.members (r0 :: rest) then
              ({ s2 with
                   rels := s2.rels ++ relationshipsToInsert member.id s2.nextRelId (r0 :: rest),
                   nextRelId := s2.nextRelId + 2 * (r0 :: rest).length }, Response.ok)
            else
              (s2, Response.serverError)

/-- DELETE `/api/family-members/:id` of `src/server/routes.ts` with the
`onDelete: 'cascade'` clauses of `src/db/schema.ts`: the member row goes,
and with it every relationship row where the member is either endpoint and
every document row referencing it. -/
def deleteFamilyMember (id : Nat) (s : DB) : DB × Response :=
  ({ s with
       members := s.members.filter (fun m => m.id != id),
       rels := s.rels.filter (fun r => r.personId != id && r.relatedPersonId != id),
       docs := s.docs.filter (fun d => d.familyMemberId != id) }, Response.ok)

/-- DELETE `/api/relationships/:id` of `src/server/routes.ts`: delete the
single row whose own serial id matches. -/
def deleteRelationship (relId : Nat) (s : DB) : DB × Response :=
  ({ s with rels := s.rels.filter (fun r => r.id != relId) }, Response.ok)

/-- Symmetry invariant of the spec over this schema: every stored edge has a
stored reciprocal with swapped endpoints and reciprocal type. -/
abbrev symmetricState (rels : List Rel) : Prop :=
  ∀ e ∈ rels, ∃ f ∈ rels,
    f.personId = e.relatedPersonId ∧ f.relatedPersonId = e.personId ∧
    f.relationType = reciprocalType e.relationType

/-- Well-formedness of a state with respect to the serial member counter: no
stored edge references the id the next insert will allocate. -/
abbrev freshMember (s : DB) : Prop :=
  ∀ e ∈ s.rels, e.personId ≠ s.nextMemberId ∧ e.relatedPersonId ≠ s.nextMemberId

/-- Projection of a row to the `(fromMemberId, toMemberId, relationType)`
triple, forgetting the serial row id. -/
def relTriple (e : Rel) : Nat × Nat × RelationType :=
  (e.personId, e.relatedPersonId, e.relationType)

end RoutesTs

namespace Part002

/-- A `relationships` row of the `src/unnamed/part_010` schema. -/
structure Rel where
  id : Nat
  fromMemberId : Nat
  toMemberId : Nat
  relationType : RelationType
deriving DecidableEq

/-- A `timeline_events` row (`src/unnamed/part_010`); timestamps dropped. -/
structure TimelineEvent where
  id : Nat
  familyMemberId : Nat
  title : String
  description : Option String
  eventDate : String
  location : Option String
  eventType : String
deriving DecidableEq

/-- A `documents` row (`src/unnamed/part_010`). -/
structure Doc where
  id : Nat
  familyMemberId : Nat
  title : String
  documentType : String
  fileUrl : String
  description : Option String
deriving DecidableEq

/-- Database state for the `part_002` revision: the four tables of
`src/unnamed/part_010` plus the serial counters. -/
structure DB where
  members : List FamilyMember
  rels : List Rel
  timelineEvents : List TimelineEvent
  docs : List Doc
  nextMemberId : Nat
  nextRelId : Nat
deriving DecidableEq

/-- Single-row `db.insert(relationships).values({...})`. -/
def addRel (s : DB) (fromId toId : Nat) (t : RelationType) : DB :=
  { s with
      rels := s.rels ++ [{ id := s.nextRelId, fromMemberId := fromId,
                           toMemberId := toId, relationType := t }],
      nextRelId := s.nextRelId + 1 }

/-- The truthiness filter `rel && rel.relatedPersonId && rel.relationType`
of `part_002`; on our typed inputs only a zero (empty) id is falsy. -/
def validRelationships (rels : List RelInput) : List RelInput :=
  rels.filter (fun r => r.relatedPersonId != 0)

/-- The POST insert loop of `src/unnamed/part_002`: each declaration inserts
its forward row, and ONLY a spouse declaration also inserts the reciprocal
row.  Rows are inserted one statement at a time, so a foreign-key failure
leaves the earlier iterations applied and surfaces as the generic 500. -/
def insertRelationshipLoop (memberId : Nat) : DB → List RelInput → DB × Response
  | s, [] => (s, Response.ok)
  | s, r :: rest =>
      if (memberIds s.members).contains r.relatedPersonId then
        let s1 := addRel s memberId r.relatedPersonId r.relationType
        if r.relationType = RelationType.spouse then
          insertRelationshipLoop memberId (addRel s1 r.relatedPersonId memberId RelationType.spouse) rest
        else
          insertRelationshipLoop memberId s1 rest
      else
        (s, Response.serverError)

/-- POST `/api/family-members` of `src/unnamed/part_002`: insert the member,
then run the one-by-one insert loop over the truthy declarations. -/
def postFamilyMember (md : MemberData) (relationshipData : Option (List RelInput)) (s : DB) : DB × Response :=
  let member : FamilyMember := { id := s.nextMemberId, data := md }
  let s1 : DB := { s with members := s.members ++ [member], nextMemberId := s.nextMemberId + 1 }
  match relationshipData with
  | none => (s1, Response.ok)
  | some rd =>
      if rd.length > 0 then
        insertRelationshipLoop member.id s1 (validRelationships rd)
      else
        (s1, Response.ok)

/-- The PUT insert loop of `src/unnamed/part_002`: a `Set` of
`from-to-type` keys skips declarations already processed (the reciprocal key
is recorded too); each accepted declaration inserts the forward row and the
reciprocal row built by the `switch`.  A foreign-key failure again leaves
prior iterations applied and surfaces as the generic 500. -/
def putInsertLoop (memberId : Nat) : List (Nat × Nat × RelationType) → DB → List RelInput → DB × Response
  | _, s, [] => (s, Response.ok)
  | processed, s, r :: rest =>
      if processed.contains (memberId, r.relatedPersonId, r.relationType) then
        putInsertLoop memberId processed s rest
      else if (memberIds s.members).contains r.relatedPersonId then
        let reciprocal := reciprocalType r.relationType
        let s1 := addRel s memberId r.relatedPersonId r.relationType
        let s2 := addRel s1 r.relatedPersonId memberId reciprocal
        putInsertLoop memberId
          ((r.relatedPersonId, memberId, reciprocal) ::
            (memberId, r.relatedPersonId, r.relationType) :: processed) s2 rest
      else
        (s, Response.serverError)

/-- PUT `/api/family-members/:id` of `src/unnamed/part_002`: 404 when the
member row does not exist; otherwise update the row, unconditionally delete
every relationship where the member is the `from` endpoint AND every one
where it is the `to` endpoint, then run the PUT insert loop when a nonempty
declaration list is present. -/
def putFamilyMember (memberId : Nat) (md : MemberData) (relationshipData : Option (List RelInput)) (s : DB) : DB × Response :=
  match findMember memberId s.members with
  | none => (s, Response.notFound)
  | some _ =>
      let s1 : DB := { s with members := updateMemberRow memberId md s.members }
      let s2 : DB := { s1 with rels := s1.rels.filter (fun r => r.fromMemberId != memberId) }
      let s3 : DB := { s2 with rels := s2.rels.filter (fun r => r.toMemberId != memberId) }
      match relationshipData with
      | none => (s3, Response.ok)
      | some rd =>
          if rd.length > 0 then
            putInsertLoop memberId [] s3 (validRelationships rd)
          else
            (s3, Response.ok)

/-- DELETE `/api/family-members/:id` of `src/unnamed/part_002` with the
cascades of `src/unnamed/part_010`: the member row goes, and with it every
relationship row touching it in either direction and every timeline event
and document referencing it. -/
def deleteFamilyMember (memberId : Nat) (s : DB) : DB × Response :=
  ({ s with
       members := s.members.filter (fun m => m.id != memberId),
       rels := s.rels.filter (fun r => r.fromMemberId != memberId && r.toMemberId != memberId),
       timelineEvents := s.timelineEvents.filter (fun t => t.familyMemberId != memberId),
       docs := s.docs.filter (fun d => d.familyMemberId != memberId) }, Response.ok)

/-- Symmetry invariant of the spec over this schema. -/
abbrev symmetricState (rels : List Rel) : Prop :=
  ∀ e ∈ rels, ∃ f ∈ rels,
    f.fromMemberId = e.toMemberId ∧ f.toMemberId = e.fromMemberId ∧
    f.relationType = reciprocalType e.relationType

end Part002

namespace MemberForm

/-- `existingMembers.filter(m => m.id !== member?.id)` of
`src/client/src/components/MemberForm.tsx`: the client-side relationship
options exclude the member being edited (no filter when creating). -/
def availableMembers (member : Option FamilyMember) (existingMembers : List FamilyMember) : List FamilyMember :=
  match member with
  | some m => existingMembers.filter (fun x => x.id != m.id)
  | none => existingMembers

end MemberForm

/-- Sample scalar payload used by concrete instances. -/
def mdSample : MemberData :=
  { firstName := "Ada", lastName := "Smith", gender := "female",
    birthDate := none, deathDate := none, birthPlace := none,
    currentLocation := none, bio := none }

/-- Second sample scalar payload. -/
def mdSample2 : MemberData :=
  { firstName := "Ben", lastName := "Smith", gender := "male",
    birthDate := none, deathDate := none, birthPlace := none,
    currentLocation := none, bio := none }

/-- `routes.ts` state with a single member and no edges. -/
def dbR1 : RoutesTs.DB :=
  { members := [{ id := 1, data := mdSample }], rels := [], docs := [],
    nextMemberId := 2, nextRelId := 0 }

/-- `routes.ts` state with two members and no edges. -/
def dbR12 : RoutesTs.DB :=
  { members := [{ id := 1, data := mdSample }, { id := 2, data := mdSample2 }],
    rels := [], docs := [], nextMemberId := 3, nextRelId := 0 }

/-- `routes.ts` state with members 1 and 2 married in both directions. -/
def dbTwoSpouses : RoutesTs.DB :=
  { members := [{ id := 1, data := mdSample }, { id := 2, data := mdSample2 }],
    rels := [{ id := 0, personId := 1, relatedPersonId := 2, relationType := RelationType.spouse },
             { id := 1, personId := 2, relatedPersonId := 1, relationType := RelationType.spouse }],
    docs := [], nextMemberId := 3, nextRelId := 2 }

/-- `part_002` state with a single member and no edges. -/
def dbB1 : Part002.DB :=
  { members := [{ id := 1, data := mdSample }], rels := [], timelineEvents := [],
    docs := [], nextMemberId := 2, nextRelId := 0 }

/-- `part_002` state with members 1 and 2 married in both directions. -/
def dbBTwoSpouses : Part002.DB :=
  { members := [{ id := 1, data := mdSample }, { id := 2, data := mdSample2 }],
    rels := [{ id := 0, fromMemberId := 1, toMemberId := 2, relationType := RelationType.spouse },
             { id := 1, fromMemberId := 2, toMemberId := 1, relationType := RelationType.spouse }],
    timelineEvents := [], docs := [], nextMemberId := 3, nextRelId := 2 }

/-- Claim C1 counterexample: in the `part_002` revision, creating member 2
with the single declaration `(1, parent)` succeeds, stores the forward edge
`(2, 1, parent)`, and leaves the edge set asymmetric — no reciprocal
`(1, 2, child)` is synthesized (only spouse gets one), so the symmetry
invariant does not hold after this successful operation. -/
theorem claim1_counterexample :
    (Part002.postFamilyMember mdSample2
      (some [{ relatedPersonId := 1, relationType := RelationType.parent }]) dbB1).2
      = Response.ok ∧
    ({ id := 0, fromMemberId := 2, toMemberId := 1, relationType := RelationType.parent } : Part002.Rel)
      ∈ (Part002.postFamilyMember mdSample2
          (some [{ relatedPersonId := 1, relationType := RelationType.parent }]) dbB1).1.rels ∧
    ¬ Part002.symmetricState
      (Part002.postFamilyMember mdSample2
        (some [{ relatedPersonId := 1, relationType := RelationType.parent }]) dbB1).1.rels := by
  decide

/-- Claim C2 counterexample: updating member 1's relationships with the
duplicated list `[(2, spouse), (2, spouse)]` is rejected with the 400
duplicate response, yet the graph state is NOT unchanged — member 1's
forward edge has already been deleted before the duplicate check ran. -/
theorem claim2_counterexample :
    (RoutesTs.putFamilyMember 1 mdSample
      (some [{ relatedPersonId := 2, relationType := RelationType.spouse },
             { relatedPersonId := 2, relationType := RelationType.spouse }]) dbTwoSpouses).2
      = Response.duplicateDetected ∧
    (RoutesTs.putFamilyMember 1 mdSample
      (some [{ relatedPersonId := 2, relationType := RelationType.spouse },
             { relatedPersonId := 2, relationType := RelationType.spouse }]) dbTwoSpouses).1.rels
      ≠ dbTwoSpouses.rels := by
  decide

/-- Claim C3 counterexample: in the `routes.ts` revision, replacing member
1's relationships with the empty list succeeds but the reciprocal edge
`(2, 1, spouse)` pointing AT member 1 survives — the handler deletes only
rows whose `personId` is the member, not both directions. -/
theorem claim3_counterexample :
    (RoutesTs.putFamilyMember 1 mdSample (some []) dbTwoSpouses).2 = Response.ok ∧
    ({ id := 1, personId := 2, relatedPersonId := 1, relationType := RelationType.spouse } : RoutesTs.Rel)
      ∈ (RoutesTs.putFamilyMember 1 mdSample (some []) dbTwoSpouses).1.rels := by
  decide

/-- Claim C4 counterexample: two successive successful replaces with the same
declaration list `[(2, spouse)]` do not leave the same stored edge rows as
one replace — only forward edges are deleted, so the second call inserts the
reciprocal row `(2, 1, spouse)` a second time. -/
theorem claim4_counterexample :
    (RoutesTs.putFamilyMember 1 mdSample
      (some [{ relatedPersonId := 2, relationType := RelationType.spouse }]) dbR12).2
      = Response.ok ∧
    (RoutesTs.putFamilyMember 1 mdSample
      (some [{ relatedPersonId := 2, relationType := RelationType.spouse }])
      (RoutesTs.putFamilyMember 1 mdSample
        (some [{ relatedPersonId := 2, relationType := RelationType.spouse }]) dbR12).1).2
      = Response.ok ∧
    (RoutesTs.putFamilyMember 1 mdSample
      (some [{ relatedPersonId := 2, relationType := RelationType.spouse }])
      (RoutesTs.putFamilyMember 1 mdSample
        (some [{ relatedPersonId := 2, relationType := RelationType.spouse }]) dbR12).1).1.rels
      ≠ (RoutesTs.putFamilyMember 1 mdSample
          (some [{ relatedPersonId := 2, relationType := RelationType.spouse }]) dbR12).1.rels := by
  decide

/-- Claim C6 counterexample: declaring member 1 as their own spouse is NOT
rejected — the update succeeds and a stored edge with equal endpoints
results (the server performs no self-relation check). -/
theorem claim6_counterexample :
    (RoutesTs.putFamilyMember 1 mdSample
      (some [{ relatedPersonId := 1, relationType := RelationType.spouse }]) dbR1).2
      = Response.ok ∧
    ∃ e ∈ (RoutesTs.putFamilyMember 1 mdSample
      (some [{ relatedPersonId := 1, relationType := RelationType.spouse }]) dbR1).1.rels,
      e.personId = e.relatedPersonId := by
  decide

/-- Claim C7 counterexample: creating a member with the same declaration
`(1, parent)` listed twice succeeds — no `DuplicateRelationshipError` — and
inserts the edge `(2, 1, parent)` twice: a duplicate edge is stored. -/
theorem claim7_counterexample :
    (RoutesTs.postFamilyMember mdSample2
      [{ relatedPersonId := 1, relationType := RelationType.parent },
       { relatedPersonId := 1, relationType := RelationType.parent }] dbR1).2
      = Response.ok ∧
    2 ≤ (RoutesTs.postFamilyMember mdSample2
      [{ relatedPersonId := 1, relationType := RelationType.parent },
       { relatedPersonId := 1, relationType := RelationType.parent }] dbR1).1.rels.countP
        (fun e => e.personId == 2 && e.relatedPersonId == 1 &&
                  e.relationType == RelationType.parent) := by
  decide

/-- Claim C8 counterexample: declaring a relationship to the nonexistent
member 99 does not produce a `ReferenceError` from a pre-insert existence
check — the insert is attempted, the store's foreign-key failure surfaces as
the generic 500, and the member row itself (id 2) has already been
inserted. -/
theorem claim8_counterexample :
    (RoutesTs.postFamilyMember mdSample2
      [{ relatedPersonId := 99, relationType := RelationType.parent }] dbR1).2
      = Response.serverError ∧
    (RoutesTs.postFamilyMember mdSample2
      [{ relatedPersonId := 99, relationType := RelationType.parent }] dbR1).1.rels = [] ∧
    ({ id := 2, data := mdSample2 } : FamilyMember)
      ∈ (RoutesTs.postFamilyMember mdSample2
          [{ relatedPersonId := 99, relationType := RelationType.parent }] dbR1).1.members := by
  decide

/-- Claim C10 counterexample: in the `part_002` revision, an update whose
body omits the relationships field entirely still deletes every edge
touching member 1 — the delete is unconditional, not gated on the field. -/
theorem claim10_counterexample :
    dbBTwoSpouses.rels ≠ [] ∧
    (Part002.putFamilyMember 1 mdSample2 none dbBTwoSpouses).2 = Response.ok ∧
    (Part002.putFamilyMember 1 mdSample2 none dbBTwoSpouses).1.rels = [] := by
  decide

/-- Claim C5: cascade completeness of `deleteMember` — after deleting member
X, no stored relationship edge references X as either endpoint, no document
and no timeline event references X, and the member row itself is gone; the
whole effect is a single state transition with the success response. -/
theorem claim5_cascade_completeness (memberId : Nat) (s : Part002.DB) :
    (∀ e ∈ (Part002.deleteFamilyMember memberId s).1.rels,
        e.fromMemberId ≠ memberId ∧ e.toMemberId ≠ memberId) ∧
    (∀ d ∈ (Part002.deleteFamilyMember memberId s).1.docs, d.familyMemberId ≠ memberId) ∧
    (∀ t ∈ (Part002.deleteFamilyMember memberId s).1.timelineEvents,
        t.familyMemberId ≠ memberId) ∧
    (∀ m ∈ (Part002.deleteFamilyMember memberId s).1.members, m.id ≠ memberId) ∧
    (Part002.deleteFamilyMember memberId s).2 = Response.ok := by
  refine ⟨?_, ?_, ?_, ?_, rfl⟩ <;>
    · intro x hx
      simp only [Part002.deleteFamilyMember, List.mem_filter, Bool.and_eq_true,
        bne_iff_ne, ne_eq] at hx
      tauto

/-- Claim C9: `DELETE /api/relationships/:id` removes exactly the stored
edges whose own id matches and leaves everything else — members, documents,
and every other edge, including the deleted edge's reciprocal — unchanged. -/
theorem claim9_single_edge_delete (relId : Nat) (s : RoutesTs.DB) :
    (RoutesTs.deleteRelationship relId s).1.members = s.members ∧
    (RoutesTs.deleteRelationship relId s).1.docs = s.docs ∧
    (∀ e ∈ s.rels, e.id ≠ relId → e ∈ (RoutesTs.deleteRelationship relId s).1.rels) ∧
    (∀ e ∈ (RoutesTs.deleteRelationship relId s).1.rels, e ∈ s.rels ∧ e.id ≠ relId) ∧
    (RoutesTs.deleteRelationship relId s).2 = Response.ok := by
  refine ⟨rfl, rfl, ?_, ?_, rfl⟩ <;>
    · intro e he
      simp only [RoutesTs.deleteRelationship, List.mem_filter, bne_iff_ne, ne_eq] at *
      tauto

/-- Claim C10 (amended part): in the `routes.ts` revision, an update request
whose body has no relationships field updates the member's scalar fields and
leaves the stored relationship edges (and documents) entirely unchanged. -/
theorem claim10_omitted_field_noop (id : Nat) (md : MemberData) (s : RoutesTs.DB) :
    (RoutesTs.putFamilyMember id md none s).1.rels = s.rels ∧
    (RoutesTs.putFamilyMember id md none s).1.docs = s.docs ∧
    (RoutesTs.putFamilyMember id md none s).1.members = updateMemberRow id md s.members ∧
    (RoutesTs.putFamilyMember id md none s).2 = Response.ok :=
  ⟨rfl, rfl, rfl, rfl⟩

/-- Reciprocation is an involution on relationship types. -/
theorem reciprocalType_reciprocalType (t : RelationType) :
    reciprocalType (reciprocalType t) = t := by
  cases t <;> rfl

/-- The forward/reciprocal pair list built by the batch insert is internally
symmetric: each inserted row's reciprocal is inserted with it. -/
theorem relationshipsToInsert_symmetric (memberId i : Nat) (D : List RelInput) :
    RoutesTs.symmetricState (RoutesTs.relationshipsToInsert memberId i D) := by
  induction D generalizing i with
  | nil =>
      intro e he
      simp [RoutesTs.relationshipsToInsert] at he
  | cons r rest ih =>
      intro e he
      simp only [RoutesTs.relationshipsToInsert, List.mem_cons] at he
      rcases he with he | he | he
      · refine ⟨{ id := i + 1, personId := r.relatedPersonId, relatedPersonId := memberId,
                  relationType := reciprocalType r.relationType }, ?_, ?_⟩
        · simp [RoutesTs.relationshipsToInsert]
        · subst he; simp
      · refine ⟨{ id := i, personId := memberId, relatedPersonId := r.relatedPersonId,
                  relationType := r.relationType }, ?_, ?_⟩
        · simp [RoutesTs.relationshipsToInsert]
        · subst he; simp [reciprocalType_reciprocalType]
      · obtain ⟨f, hf, hp⟩ := ih (i + 2) e he
        exact ⟨f, by simp [RoutesTs.relationshipsToInsert, hf], hp⟩

/-- Symmetry is preserved by concatenating two internally symmetric edge
lists. -/
theorem symmetricState_append {l1 l2 : List RoutesTs.Rel}
    (h1 : RoutesTs.symmetricState l1) (h2 : RoutesTs.symmetricState l2) :
    RoutesTs.symmetricState (l1 ++ l2) := by
  intro e he
  rcases List.mem_append.mp he with h | h
  · obtain ⟨f, hf, hp⟩ := h1 e h
    exact ⟨f, List.mem_append_left _ hf, hp⟩
  · obtain ⟨f, hf, hp⟩ := h2 e h
    exact ⟨f, List.mem_append_right _ hf, hp⟩

/-- Claim C1 (amended part): the `routes.ts` POST preserves the symmetry
invariant — starting from any symmetric edge set, every outcome of the
create handler (success, duplicate rejection, or store failure) leaves a
symmetric edge set, because forward and reciprocal rows are inserted as a
batch of pairs. -/
theorem claim1_post_preserves_symmetry (md : MemberData) (rd : List RelInput)
    (s : RoutesTs.DB) (hsym : RoutesTs.symmetricState s.rels) :
    RoutesTs.symmetricState (RoutesTs.postFamilyMember md rd s).1.rels := by
  cases rd with
  | nil => simpa [RoutesTs.postFamilyMember] using hsym
  | cons r0 rest =>
      simp only [RoutesTs.postFamilyMember]
      split
      · exact hsym
      · split
        · exact symmetricState_append hsym (relationshipsToInsert_symmetric _ _ _)
        · exact hsym

/-- Claim C1 witness: the preservation theorem applied to a concrete
symmetric state (one member, no edges) and a concrete spouse declaration. -/
theorem claim1_witness :
    RoutesTs.symmetricState dbR1.rels ∧
    RoutesTs.symmetricState
      (RoutesTs.postFamilyMember mdSample2
        [{ relatedPersonId := 1, relationType := RelationType.spouse }] dbR1).1.rels :=
  ⟨by decide,
   claim1_post_preserves_symmetry mdSample2
     [{ relatedPersonId := 1, relationType := RelationType.spouse }] dbR1 (by decide)⟩

/-- Claim C2 (amended part): when the declaration list contains a duplicate
`(relatedPersonId, relationType)` pair, the `routes.ts` PUT responds with the
400 duplicate rejection and inserts nothing — but the member row has already
been updated and every forward edge of the member already deleted
(delete-then-validate), so the request is not atomic. -/
theorem claim2_duplicate_rejection_not_atomic (id : Nat) (md : MemberData)
    (D : List RelInput) (s : RoutesTs.DB) (hdup : RoutesTs.hasDuplicates D = true) :
    RoutesTs.putFamilyMember id md (some D) s =
      ({ s with members := updateMemberRow id md s.members,
                rels := s.rels.filter (fun r => r.personId != id) },
       Response.duplicateDetected) := by
  simp [RoutesTs.putFamilyMember, hdup]

/-- Claim C2 witness: the characterization applied to the concrete married
pair and the duplicated spouse declaration. -/
theorem claim2_witness :
    RoutesTs.hasDuplicates
      [{ relatedPersonId := 2, relationType := RelationType.spouse },
       { relatedPersonId := 2, relationType := RelationType.spouse }] = true ∧
    RoutesTs.putFamilyMember 1 mdSample
      (some [{ relatedPersonId := 2, relationType := RelationType.spouse },
             { relatedPersonId := 2, relationType := RelationType.spouse }]) dbTwoSpouses =
      ({ dbTwoSpouses with
           members := updateMemberRow 1 mdSample dbTwoSpouses.members,
           rels := dbTwoSpouses.rels.filter (fun r => r.personId != 1) },
       Response.duplicateDetected) :=
  ⟨by decide,
   claim2_duplicate_rejection_not_atomic 1 mdSample
     [{ relatedPersonId := 2, relationType := RelationType.spouse },
      { relatedPersonId := 2, relationType := RelationType.spouse }] dbTwoSpouses (by decide)⟩

/-- Claim C7 (amended part): the `existingRelationships` cross-check of the
`routes.ts` POST can never fire — it only queries edges whose endpoint is the
freshly allocated member id, and in any well-formed state no stored edge
references that id — so the create path never answers with the duplicate
rejection. -/
theorem claim7_crosscheck_never_fires (md : MemberData) (rd : List RelInput)
    (s : RoutesTs.DB) (hfresh : RoutesTs.freshMember s) :
    (RoutesTs.postFamilyMember md rd s).2 ≠ Response.duplicateDetected := by
  cases rd with
  | nil => simp [RoutesTs.postFamilyMember]
  | cons r0 rest =>
      simp only [RoutesTs.postFamilyMember]
      split
      · next hlen =>
          exfalso
          have hne := List.length_pos.mp hlen
          obtain ⟨e, he⟩ := List.exists_mem_of_ne_nil _ hne
          have := List.mem_filter.mp he
          obtain ⟨h1, h2⟩ := hfresh e this.1
          revert this
          simp [h1, h2]
      · split <;> simp

/-- Claim C7 witness: the theorem applied to a concrete well-formed state and
one declaration. -/
theorem claim7_witness :
    RoutesTs.freshMember dbR1 ∧
    (RoutesTs.postFamilyMember mdSample2
      [{ relatedPersonId := 1, relationType := RelationType.parent }] dbR1).2
      ≠ Response.duplicateDetected :=
  ⟨by decide,
   claim7_crosscheck_never_fires mdSample2
     [{ relatedPersonId := 1, relationType := RelationType.parent }] dbR1 (by decide)⟩

/-- Updating a member's scalar columns does not change the set of member
ids. -/
theorem memberIds_updateMemberRow (id : Nat) (md : MemberData) (ms : List FamilyMember) :
    memberIds (updateMemberRow id md ms) = memberIds ms := by
  induction ms with
  | nil => rfl
  | cons m ms ih =>
      simp only [memberIds, updateMemberRow, List.map_cons] at *
      by_cases h : m.id = id <;> simp [h, ih]

/-- A member id present in the table is found by the id lookup, and the row
found carries that id. -/
theorem findMember_mem {m : Nat} {ms : List FamilyMember} (hm : m ∈ memberIds ms) :
    ∃ x, findMember m ms = some x ∧ x.id = m := by
  simp only [memberIds, List.mem_map] at hm
  obtain ⟨y, hy, hyid⟩ := hm
  have hsome : (ms.find? (fun v => v.id == m)).isSome :=
    List.find?_isSome.mpr ⟨y, hy, by simp [hyid]⟩
  obtain ⟨x, hx⟩ := Option.isSome_iff_exists.mp hsome
  have hpx := List.find?_some hx
  exact ⟨x, hx, by simpa using hpx⟩

/-- Claim C6 (amended part): the server performs no self-relation check — a
declaration naming the member itself is accepted by the `routes.ts` PUT and
a stored edge with equal endpoints results; only the client-side form
excludes the edited member from the relationship options. -/
theorem claim6_no_self_relation_check (m : Nat) (t : RelationType) (md : MemberData)
    (s : RoutesTs.DB) (hm : m ∈ memberIds s.members) :
    ((RoutesTs.putFamilyMember m md
        (some [{ relatedPersonId := m, relationType := t }]) s).2 = Response.ok ∧
     ∃ e ∈ (RoutesTs.putFamilyMember m md
        (some [{ relatedPersonId := m, relationType := t }]) s).1.rels,
        e.personId = e.relatedPersonId) ∧
    ∀ mem ms x, x ∈ MemberForm.availableMembers (some mem) ms → x.id ≠ mem.id := by
  constructor
  · obtain ⟨mem0, hfind, hid⟩ := findMember_mem hm
    have hdup : RoutesTs.hasDuplicates [{ relatedPersonId := m, relationType := t }] = false := rfl
    have hfk : RoutesTs.relatedIdsExist
        (updateMemberRow m md s.members) [{ relatedPersonId := m, relationType := t }] = true := by
      simp only [RoutesTs.relatedIdsExist, memberIds_updateMemberRow, List.all_cons,
        List.all_nil, Bool.and_true]
      simpa [List.contains_iff_exists_mem_beq] using hm
    simp only [RoutesTs.putFamilyMember, hfind, hfk, hdup, RoutesTs.relationshipsToInsert,
      Bool.false_eq_true, if_false]
    refine ⟨rfl, ?_⟩
    refine ⟨{ id := s.nextRelId, personId := mem0.id, relatedPersonId := m,
              relationType := t }, ?_, ?_⟩
    · simp
    · simpa using hid
  · intro mem ms x hx
    simp only [MemberForm.availableMembers, List.mem_filter, bne_iff_ne, ne_eq] at hx
    simpa using hx.2

/-- Claim C6 witness: the theorem applied to member 1 declaring themself as
spouse in a concrete one-member state. -/
theorem claim6_witness :
    1 ∈ memberIds dbR1.members ∧
    (((RoutesTs.putFamilyMember 1 mdSample
        (some [{ relatedPersonId := 1, relationType := RelationType.spouse }]) dbR1).2
        = Response.ok ∧
      ∃ e ∈ (RoutesTs.putFamilyMember 1 mdSample
        (some [{ relatedPersonId := 1, relationType := RelationType.spouse }]) dbR1).1.rels,
        e.personId = e.relatedPersonId) ∧
     ∀ mem ms x, x ∈ MemberForm.availableMembers (some mem) ms → x.id ≠ mem.id) :=
  ⟨by decide, claim6_no_self_relation_check 1 RelationType.spouse mdSample dbR1 (by decide)⟩

/-- Claim C8 (amended part): when a declaration references a member id that
does not exist (and is not the id being allocated), the `routes.ts` POST
performs no pre-insert existence check — the batch insert hits the store's
foreign-key failure, the handler answers with the generic 500, no edge is
stored, and the member row itself has already been inserted and is kept. -/
theorem claim8_fk_failure_not_reference_error (md : MemberData) (rd : List RelInput)
    (s : RoutesTs.DB) (r : RelInput) (hfresh : RoutesTs.freshMember s) (hr : r ∈ rd)
    (hmem : r.relatedPersonId ∉ memberIds s.members)
    (hnew : r.relatedPersonId ≠ s.nextMemberId) :
    RoutesTs.postFamilyMember md rd s =
      ({ s with members := s.members ++ [{ id := s.nextMemberId, data := md }],
                nextMemberId := s.nextMemberId + 1 }, Response.serverError) := by
  cases rd with
  | nil => exact absurd hr (List.not_mem_nil r)
  | cons r0 rest =>
      simp only [RoutesTs.postFamilyMember]
      split
      · next hlen =>
          exfalso
          have hne := List.length_pos.mp hlen
          obtain ⟨e, he⟩ := List.exists_mem_of_ne_nil _ hne
          have hmf := List.mem_filter.mp he
          obtain ⟨h1, h2⟩ := hfresh e hmf.1
          revert hmf
          simp [h1, h2]
      · split
        · next hfk =>
            exfalso
            have hall := List.all_eq_true.mp hfk r hr
            have hin : r.relatedPersonId
                ∈ memberIds (s.members ++ [{ id := s.nextMemberId, data := md }]) := by
              simpa [List.contains_iff_exists_mem_beq] using hall
            rw [show memberIds (s.members ++ [{ id := s.nextMemberId, data := md }])
                  = memberIds s.members ++ [s.nextMemberId] from by simp [memberIds]] at hin
            rcases List.mem_append.mp hin with h | h
            · exact hmem h
            · exact hnew (by simpa using h)
        · rfl

/-- Claim C8 witness: the theorem applied to the concrete one-member state
and a declaration referencing the nonexistent member 99. -/
theorem claim8_witness :
    RoutesTs.freshMember dbR1 ∧
    ({ relatedPersonId := 99, relationType := RelationType.parent } : RelInput)
      ∈ [({ relatedPersonId := 99, relationType := RelationType.parent } : RelInput)] ∧
    (99 : Nat) ∉ memberIds dbR1.members ∧
    (99 : Nat) ≠ dbR1.nextMemberId ∧
    RoutesTs.postFamilyMember mdSample2
      [{ relatedPersonId := 99, relationType := RelationType.parent }] dbR1 =
      ({ dbR1 with
           members := dbR1.members ++ [{ id := dbR1.nextMemberId, data := mdSample2 }],
           nextMemberId := dbR1.nextMemberId + 1 }, Response.serverError) :=
  ⟨by decide, by decide, by decide, by decide,
   claim8_fk_failure_not_reference_error mdSample2
     [{ relatedPersonId := 99, relationType := RelationType.parent }] dbR1
     { relatedPersonId := 99, relationType := RelationType.parent }
     (by decide) (by decide) (by decide) (by decide)⟩

/-- The `part_002` PUT insert loop only appends rows: every edge present when
the loop starts is still present when it stops, on every exit path. -/
theorem putInsertLoop_mono (memberId : Nat) (processed : List (Nat × Nat × RelationType))
    (s : Part002.DB) (l : List RelInput) :
    ∀ e ∈ s.rels, e ∈ (Part002.putInsertLoop memberId processed s l).1.rels := by
  induction l generalizing processed s with
  | nil => intro e he; simpa [Part002.putInsertLoop] using he
  | cons r rest ih =>
      intro e he
      simp only [Part002.putInsertLoop]
      split
      · exact ih _ _ e he
      · split
        · exact ih _ _ e (by simp [Part002.addRel, he])
        · simpa using he

/-- Every row present after the `part_002` PUT insert loop either was present
when the loop started or carries a serial id at least the starting counter. -/
theorem putInsertLoop_new_ids (memberId : Nat) (processed : List (Nat × Nat × RelationType))
    (s : Part002.DB) (l : List RelInput) :
    ∀ e ∈ (Part002.putInsertLoop memberId processed s l).1.rels,
      e ∈ s.rels ∨ s.nextRelId ≤ e.id := by
  induction l generalizing processed s with
  | nil => intro e he; exact Or.inl (by simpa [Part002.putInsertLoop] using he)
  | cons r rest ih =>
      intro e he
      simp only [Part002.putInsertLoop] at he
      split at he
      · exact ih _ _ e he
      · split at he
        · rcases ih _ _ e he with hin | hge
          · simp only [Part002.addRel, List.mem_append, List.mem_singleton] at hin
            rcases hin with (hin | rfl) | rfl
            · exact Or.inl hin
            · exact Or.inr (by simp [Part002.addRel])
            · exact Or.inr (by simp [Part002.addRel])
          · simp only [Part002.addRel] at hge
            exact Or.inr (by omega)
        · exact Or.inl (by simpa using he)

/-- Claim C3 (amended part): the `part_002` PUT deletes every existing edge
touching the member in BOTH directions — any prior edge with the member as
`from` or `to` endpoint is gone from the result (new rows get fresh serial
ids) — while prior edges between other members survive untouched. -/
theorem claim3_put_deletes_both_directions (memberId : Nat) (md : MemberData)
    (rd : Option (List RelInput)) (s : Part002.DB)
    (hval : ∀ e ∈ s.rels, e.id < s.nextRelId)
    (hfound : (findMember memberId s.members).isSome) :
    (∀ e ∈ s.rels, (e.fromMemberId = memberId ∨ e.toMemberId = memberId) →
        e ∉ (Part002.putFamilyMember memberId md rd s).1.rels) ∧
    (∀ e ∈ s.rels, e.fromMemberId ≠ memberId → e.toMemberId ≠ memberId →
        e ∈ (Part002.putFamilyMember memberId md rd s).1.rels) := by
  obtain ⟨mem0, hfind⟩ := Option.isSome_iff_exists.mp hfound
  have hbase_not : ∀ e ∈ s.rels, (e.fromMemberId = memberId ∨ e.toMemberId = memberId) →
      e ∉ (s.rels.filter (fun r => r.fromMemberId != memberId)).filter
            (fun r => r.toMemberId != memberId) := by
    intro e _ ht habs
    have h2 := List.mem_filter.mp habs
    have h1 := List.mem_filter.mp h2.1
    rcases ht with ht | ht
    · rw [ht] at h1; simp at h1
    · rw [ht] at h2; simp at h2
  have hbase_in : ∀ e ∈ s.rels, e.fromMemberId ≠ memberId → e.toMemberId ≠ memberId →
      e ∈ (s.rels.filter (fun r => r.fromMemberId != memberId)).filter
            (fun r => r.toMemberId != memberId) := by
    intro e he h1 h2
    exact List.mem_filter.mpr ⟨List.mem_filter.mpr ⟨he, by simpa using h1⟩, by simpa using h2⟩
  cases rd with
  | none =>
      simp only [Part002.putFamilyMember, hfind]
      exact ⟨hbase_not, hbase_in⟩
  | some rdl =>
      simp only [Part002.putFamilyMember, hfind]
      split
      · constructor
        · intro e he ht habs
          rcases putInsertLoop_new_ids _ _ _ _ e habs with hin | hge
          · exact hbase_not e he ht hin
          · have := hval e he
            simp only at hge
            omega
        · intro e he h1 h2
          exact putInsertLoop_mono _ _ _ _ e (hbase_in e he h1 h2)
      · exact ⟨hbase_not, hbase_in⟩

/-- Claim C3 witness: the theorem applied to the concrete married pair with
an empty replacement list — both the forward and the reciprocal edge of
member 1 are gone. -/
theorem claim3_witness :
    (∀ e ∈ dbBTwoSpouses.rels, e.id < dbBTwoSpouses.nextRelId) ∧
    (findMember 1 dbBTwoSpouses.members).isSome = true ∧
    ((∀ e ∈ dbBTwoSpouses.rels, (e.fromMemberId = 1 ∨ e.toMemberId = 1) →
        e ∉ (Part002.putFamilyMember 1 mdSample (some []) dbBTwoSpouses).1.rels) ∧
     (∀ e ∈ dbBTwoSpouses.rels, e.fromMemberId ≠ 1 → e.toMemberId ≠ 1 →
        e ∈ (Part002.putFamilyMember 1 mdSample (some []) dbBTwoSpouses).1.rels)) :=
  ⟨by decide, by decide,
   claim3_put_deletes_both_directions 1 mdSample (some []) dbBTwoSpouses
     (by decide) (by decide)⟩

/-- Re-running the member-row update with the same payload changes nothing. -/
theorem updateMemberRow_idem (id : Nat) (md : MemberData) (ms : List FamilyMember) :
    updateMemberRow id md (updateMemberRow id md ms) = updateMemberRow id md ms := by
  induction ms with
  | nil => rfl
  | cons m ms ih =>
      simp only [updateMemberRow, List.map_cons] at ih ⊢
      by_cases h : m.id = id <;> simp [h, ih]

/-- Looking a member up after the row update finds the updated row. -/
theorem findMember_updateMemberRow (id : Nat) (md : MemberData) (ms : List FamilyMember) :
    findMember id (updateMemberRow id md ms)
      = (findMember id ms).map (fun m => { m with data := md }) := by
  induction ms with
  | nil => rfl
  | cons m ms ih =>
      simp only [updateMemberRow, List.map_cons, findMember] at ih ⊢
      by_cases h : m.id = id <;> simp [h, List.find?_cons, ih]

/-- Filtering twice with the same predicate filters once. -/
theorem filter_self_idem {α : Type} (p : α → Bool) (l : List α) :
    (l.filter p).filter p = l.filter p := by
  induction l with
  | nil => rfl
  | cons a l ih =>
      by_cases h : p a = true <;> simp [List.filter_cons, h, ih]

/-- The endpoint/type triples of a batch insert do not depend on the serial
id the batch starts at. -/
theorem relTriple_relationshipsToInsert (m : Nat) (i j : Nat) (D : List RelInput) :
    (RoutesTs.relationshipsToInsert m i D).map RoutesTs.relTriple
      = (RoutesTs.relationshipsToInsert m j D).map RoutesTs.relTriple := by
  induction D generalizing i j with
  | nil => rfl
  | cons r rest ih =>
      simp only [RoutesTs.relationshipsToInsert, List.map_cons]
      exact congrArg _ (congrArg _ (ih (i + 2) (j + 2)))

/-- Claim C4 (amended part): running the `routes.ts` replace twice with the
same declaration list yields the same set of `(from, to, type)` edge triples
as running it once — on every path, including rejections and store failures.
(The stored rows themselves differ: only forward rows are deleted, so
reciprocal rows are duplicated; see the counterexample.) -/
theorem claim4_replace_triple_idempotent (id : Nat) (md : MemberData) (D : List RelInput)
    (s : RoutesTs.DB) (tr : Nat × Nat × RelationType) :
    (tr ∈ ((RoutesTs.putFamilyMember id md (some D)
        (RoutesTs.putFamilyMember id md (some D) s).1).1.rels.map RoutesTs.relTriple)) ↔
    (tr ∈ ((RoutesTs.putFamilyMember id md (some D) s).1.rels.map RoutesTs.relTriple)) := by
  by_cases hdup : RoutesTs.hasDuplicates D = true
  · simp only [RoutesTs.putFamilyMember, hdup, if_true, filter_self_idem]
  · rw [Bool.not_eq_true] at hdup
    cases D with
    | nil =>
        simp only [RoutesTs.putFamilyMember, hdup, Bool.false_eq_true, if_false,
          filter_self_idem]
    | cons r0 rest =>
        cases hfind : findMember id s.members with
        | none =>
            have hfind2 : findMember id (updateMemberRow id md s.members) = none := by
              rw [findMember_updateMemberRow, hfind]; rfl
            simp only [RoutesTs.putFamilyMember, hdup, Bool.false_eq_true, if_false, hfind,
              hfind2, filter_self_idem]
        | some m =>
            have hfind2 : findMember id (updateMemberRow id md s.members)
                = some { id := m.id, data := md } := by
              rw [findMember_updateMemberRow, hfind]; rfl
            by_cases hfk : RoutesTs.relatedIdsExist
                (updateMemberRow id md s.members) (r0 :: rest) = true
            · simp only [RoutesTs.putFamilyMember, hdup, Bool.false_eq_true, if_false, hfind,
                hfind2, updateMemberRow_idem, hfk, if_true, List.filter_append,
                filter_self_idem, List.map_append, List.mem_append]
              rw [relTriple_relationshipsToInsert m.id
                (s.nextRelId + 2 * (r0 :: rest).length) s.nextRelId]
              constructor
              · rintro ((h | h) | h)
                · exact Or.inl h
                · refine Or.inr ?_
                  obtain ⟨e, he, htr⟩ := List.mem_map.mp h
                  exact List.mem_map.mpr ⟨e, List.mem_of_mem_filter he, htr⟩
                · exact Or.inr h
              · rintro (h | h)
                · exact Or.inl (Or.inl h)
                · exact Or.inr h
            · rw [Bool.not_eq_true] at hfk
              simp only [RoutesTs.putFamilyMember, hdup, Bool.false_eq_true, if_false, hfind,
                hfind2, updateMemberRow_idem, hfk, filter_self_idem]
